import Mathlib

/-!
Shallow embedding of the vectorized Monte-Carlo retirement engine
(function `run_sim` of `src/retirement_simulation/sim.py`).

Market returns are passed in explicitly as `draws yearIdx trialIdx`,
replacing the `np.random.normal` call with an injectable source; all
monetary arithmetic is carried out over `ℚ`.  The vectorized array
updates of the source decompose trial-by-trial (every mask and update is
elementwise), so the population is modelled as the list of per-trial
states indexed by trial number.
-/

/-- Scenario dataclass of `sim.py`: name plus the four macro parameters. -/
structure Scenario where
  name : String
  avg_return : ℚ
  vol : ℚ
  raise_rate : ℚ
  inflation : ℚ
deriving Repr, DecidableEq

/-- Plan fields that `run_sim` reads from the JSON plan dictionary,
as a validated record (ages and the skip budget are integers, monetary
amounts rationals). -/
structure Plan where
  currentAge : Int
  retirementAge : Int
  deathAge : Int
  portfolioCurrent : ℚ
  monthlyDeposit : ℚ
  annualDividends : ℚ
  annualSpend : ℚ
  socialSecurity : ℚ
  emergencySavings : Int
deriving Repr, DecidableEq

/-- Per-trial state: one entry of the parallel `portfolios` and `skips`
arrays of `run_sim`. -/
structure TrialState where
  balance : ℚ
  skips : Int
deriving Repr, DecidableEq

/-- Accumulation-phase contribution of `run_sim`:
`(plan["PORTFOLIO"]["MONTHLY DEPOSIT"] * 12) * ((1 + scen.raise_rate) ** year_idx)`. -/
def contribution (plan : Plan) (scen : Scenario) (yearIdx : Nat) : ℚ :=
  plan.monthlyDeposit * 12 * (1 + scen.raise_rate) ^ yearIdx

/-- Retirement-phase net withdrawal of `run_sim`:
`inf_spend - inf_ss - inf_div`, each base amount inflated by
`(1 + scen.inflation) ** year_idx`. -/
def netWithdrawal (plan : Plan) (scen : Scenario) (yearIdx : Nat) : ℚ :=
  plan.annualSpend * (1 + scen.inflation) ^ yearIdx
    - plan.socialSecurity * (1 + scen.inflation) ^ yearIdx
    - plan.annualDividends * (1 + scen.inflation) ^ yearIdx

/-- One trial's entry of the mask
`should_withdraw = (market_returns > 0) | (skips <= 0)`. -/
def shouldWithdraw (r : ℚ) (skips : Int) : Bool :=
  decide (0 < r) || decide (skips ≤ 0)

/-- Balance of one trial after the market step (`portfolios *= (1 +
market_returns)`) and the phase-dependent cash flow, before the floor.
In the retirement phase only the `should_withdraw` trials have
`net_withdrawal` subtracted. -/
def cashFlowBalance (plan : Plan) (scen : Scenario) (yearIdx : Nat) (r : ℚ)
    (st : TrialState) : ℚ :=
  let b1 := st.balance * (1 + r)
  if plan.currentAge + (yearIdx : Int) ≤ plan.retirementAge then
    b1 + contribution plan scen yearIdx
  else if shouldWithdraw r st.skips then
    b1 - netWithdrawal plan scen yearIdx
  else b1

/-- One iteration of `run_sim`'s year loop for one trial: market step,
phase branch, the skip-count update
`used_skip = (~should_withdraw) & (portfolios > 0); skips[used_skip] -= 1`
(the balance a non-withdrawing trial shows at that check is exactly its
post-cash-flow balance), and the floor `portfolios = np.maximum(portfolios, 0)`. -/
def stepTrial (plan : Plan) (scen : Scenario) (yearIdx : Nat) (r : ℚ)
    (st : TrialState) : TrialState :=
  let b2 := cashFlowBalance plan scen yearIdx r st
  let skips2 :=
    if plan.retirementAge < plan.currentAge + (yearIdx : Int)
        ∧ shouldWithdraw r st.skips = false ∧ 0 < b2
    then st.skips - 1 else st.skips
  ⟨max b2 0, skips2⟩

/-- Initial per-trial state: `portfolios = np.full(n, CURRENT)` and
`skips = np.full(n, EMERGENCY SAVINGS)`. -/
def initTrial (plan : Plan) : TrialState :=
  ⟨plan.portfolioCurrent, plan.emergencySavings⟩

/-- State of one trial after the first `k` loop iterations (year indices
run `1, 2, ..., k`, as in `np.arange(1, years+1)`); `rs yi` is this
trial's market return drawn in year `yi`. -/
def trialAfter (plan : Plan) (scen : Scenario) (rs : Nat → ℚ) : Nat → TrialState
  | 0 => initTrial plan
  | k + 1 => stepTrial plan scen (k + 1) (rs (k + 1)) (trialAfter plan scen rs k)

/-- The whole trial population after `k` years, trial `t` receiving the
draw `draws yi t` in year `yi`. -/
def popAfter (plan : Plan) (scen : Scenario) (n : Nat) (draws : Nat → Nat → ℚ)
    (k : Nat) : List TrialState :=
  (List.range n).map fun t => trialAfter plan scen (fun yi => draws yi t) k

/-- Number of loop iterations: `years = death_age - curr_age`;
`np.arange(1, years+1)` is empty whenever `years ≤ 0`. -/
def simYears (plan : Plan) : Nat := (plan.deathAge - plan.currentAge).toNat

/-- The final balance population a run reduces. -/
def finalBalances (plan : Plan) (scen : Scenario) (n : Nat)
    (draws : Nat → Nat → ℚ) : List ℚ :=
  (popAfter plan scen n draws (simYears plan)).map TrialState.balance

/-- Reduction `success_rate = np.sum(portfolios > 0) / n_sims * 100`. -/
def successRate (n : Nat) (finals : List ℚ) : ℚ :=
  ((finals.countP fun b => decide (0 < b) : Nat) : ℚ) / (n : ℚ) * 100

/-- Modelled from the spec: `np.median` is a NumPy library call whose code
is not under `src/`; per the spec it is the standard median — sort the
population, take the middle element for odd length and the average of the
two middle elements for even length. -/
def median (xs : List ℚ) : ℚ :=
  let s := List.insertionSort (fun a b => a ≤ b) xs
  let m := s.length
  if m % 2 = 1 then s.getD (m / 2) 0
  else (s.getD (m / 2 - 1) 0 + s.getD (m / 2) 0) / 2

/-- The engine `run_sim` on an already-extracted plan record: run the
year loop over the whole population and reduce to
`(success_rate, median_final)`. -/
def runSim (n : Nat) (plan : Plan) (scen : Scenario)
    (draws : Nat → Nat → ℚ) : ℚ × ℚ :=
  (successRate n (finalBalances plan scen n draws),
   median (finalBalances plan scen n draws))

/-- The only failure `run_sim` itself can raise while reading the plan
dictionary: a Python `KeyError` naming the missing key. -/
inductive SimError where
  | keyError (field : String)
deriving Repr, DecidableEq

/-- Dictionary access `plan[...]`: the field is either present or raises
`KeyError` naming it. -/
def getKey {α : Type} (o : Option α) (field : String) : Except SimError α :=
  match o with
  | some v => Except.ok v
  | none => Except.error (SimError.keyError field)

/-- The raw plan dictionary `run_sim` receives: every field may be absent. -/
structure PlanDict where
  currentAge : Option Int
  retirementAge : Option Int
  deathAge : Option Int
  portfolioCurrent : Option ℚ
  monthlyDeposit : Option ℚ
  annualDividends : Option ℚ
  annualSpend : Option ℚ
  socialSecurity : Option ℚ
  emergencySavings : Option Int
deriving Repr, DecidableEq

/-- `run_sim` on the raw dictionary, modelling where each key is read.
`CURRENT AGE`, `RETIREMENT AGE`, `DEATH AGE`, `CURRENT` and
`EMERGENCY SAVINGS` are read before the year loop, in that order.
`MONTHLY DEPOSIT` is read only inside an accumulation-phase iteration and
the three retirement keys only inside a retirement-phase iteration, so
each of those lookups happens (and can fail) exactly when its branch
executes at least once: accumulation years exist iff `1 ≤ years` and
`curr_age + 1 ≤ ret_age`; retirement years exist iff `1 ≤ years` and
`ret_age < curr_age + years`; accumulation years precede retirement
years.  A key never read leaves the result unaffected (the `getD 0`
default is arbitrary: that field is never used by the run). -/
def runSimE (n : Nat) (pd : PlanDict) (scen : Scenario)
    (draws : Nat → Nat → ℚ) : Except SimError (ℚ × ℚ) := do
  let currentAge ← getKey pd.currentAge "CURRENT AGE"
  let retirementAge ← getKey pd.retirementAge "RETIREMENT AGE"
  let deathAge ← getKey pd.deathAge "DEATH AGE"
  let portfolioCurrent ← getKey pd.portfolioCurrent "CURRENT"
  let emergencySavings ← getKey pd.emergencySavings "EMERGENCY SAVINGS"
  let years := deathAge - currentAge
  let monthlyDeposit ←
    if 1 ≤ years ∧ currentAge + 1 ≤ retirementAge then
      getKey pd.monthlyDeposit "MONTHLY DEPOSIT"
    else pure (pd.monthlyDeposit.getD 0)
  let annualSpend ←
    if 1 ≤ years ∧ retirementAge < currentAge + years then
      getKey pd.annualSpend "ANNUAL SPEND"
    else pure (pd.annualSpend.getD 0)
  let socialSecurity ←
    if 1 ≤ years ∧ retirementAge < currentAge + years then
      getKey pd.socialSecurity "SOCIAL SECURITY"
    else pure (pd.socialSecurity.getD 0)
  let annualDividends ←
    if 1 ≤ years ∧ retirementAge < currentAge + years then
      getKey pd.annualDividends "ANNUAL DIVIDENDS"
    else pure (pd.annualDividends.getD 0)
  pure (runSim n
    ⟨currentAge, retirementAge, deathAge, portfolioCurrent, monthlyDeposit,
     annualDividends, annualSpend, socialSecurity, emergencySavings⟩
    scen draws)

/-! ### Helper lemmas shared across claims -/

theorem stepTrial_balance_eq (plan : Plan) (scen : Scenario) (yi : Nat) (r : ℚ)
    (st : TrialState) :
    (stepTrial plan scen yi r st).balance = max (cashFlowBalance plan scen yi r st) 0 := rfl

theorem stepTrial_balance_nonneg (plan : Plan) (scen : Scenario) (yi : Nat) (r : ℚ)
    (st : TrialState) : 0 ≤ (stepTrial plan scen yi r st).balance :=
  le_max_right _ _

theorem stepTrial_skips_le (plan : Plan) (scen : Scenario) (yi : Nat) (r : ℚ)
    (st : TrialState) : (stepTrial plan scen yi r st).skips ≤ st.skips := by
  unfold stepTrial
  dsimp only
  split <;> omega

theorem stepTrial_skips_nonneg (plan : Plan) (scen : Scenario) (yi : Nat) (r : ℚ)
    (st : TrialState) (h : 0 ≤ st.skips) : 0 ≤ (stepTrial plan scen yi r st).skips := by
  unfold stepTrial
  dsimp only
  split
  · rename_i hcond
    have hsw := hcond.2.1
    have : ¬ st.skips ≤ 0 := by
      intro hle
      simp [shouldWithdraw, hle] at hsw
    omega
  · exact h

theorem trialAfter_skips_nonneg (plan : Plan) (scen : Scenario) (rs : Nat → ℚ)
    (hes : 0 ≤ plan.emergencySavings) : ∀ k, 0 ≤ (trialAfter plan scen rs k).skips := by
  intro k
  induction k with
  | zero => exact hes
  | succ m ih => exact stepTrial_skips_nonneg _ _ _ _ _ ih

theorem mem_popAfter (plan : Plan) (scen : Scenario) (n : Nat) (draws : Nat → Nat → ℚ)
    (k : Nat) (st : TrialState) :
    st ∈ popAfter plan scen n draws k
      ↔ ∃ t, t < n ∧ st = trialAfter plan scen (fun yi => draws yi t) k := by
  simp only [popAfter, List.mem_map, List.mem_range]
  constructor
  · rintro ⟨t, ht, hst⟩
    exact ⟨t, ht, hst.symm⟩
  · rintro ⟨t, ht, hst⟩
    exact ⟨t, ht, hst.symm⟩

/-! ### Claims about the year-step (C1, C2, C7) -/

/-- C1: in a retirement-phase year (`age > retirement_age`) the trial's
balance has `net_withdrawal` subtracted (before the floor) exactly when
its market return is `> 0` or its skip count is `≤ 0`; a trial with
return `≤ 0` and skip count `> 0` takes no withdrawal that year. -/
theorem skip_policy_withdrawal (plan : Plan) (scen : Scenario) (yi : Nat) (r : ℚ)
    (st : TrialState) (hret : plan.retirementAge < plan.currentAge + (yi : Int)) :
    ((0 < r ∨ st.skips ≤ 0) →
      (stepTrial plan scen yi r st).balance
        = max (st.balance * (1 + r) - netWithdrawal plan scen yi) 0)
    ∧ (r ≤ 0 → 0 < st.skips →
      (stepTrial plan scen yi r st).balance = max (st.balance * (1 + r)) 0) := by
  have hage : ¬ plan.currentAge + (yi : Int) ≤ plan.retirementAge := not_le.mpr hret
  constructor
  · intro h
    have hsw : shouldWithdraw r st.skips = true := by
      rcases h with h | h <;> simp [shouldWithdraw, h]
    simp [stepTrial, cashFlowBalance, hage, hsw]
  · intro hr hs
    have hsw : shouldWithdraw r st.skips = false := by
      simp [shouldWithdraw, not_lt.mpr hr]
      omega
    simp [stepTrial, cashFlowBalance, hage, hsw]

/-- A deterministic scenario used by concrete instances: zero mean return,
zero volatility, zero raises, zero inflation. -/
def zeroScen : Scenario := ⟨"Deterministic", 0, 0, 0, 0⟩

/-- A concrete plan already in its retirement phase in year 1:
ages 65 / 65 / 67, balance 100, annual spend 10, two skips. -/
def retPlan : Plan := ⟨65, 65, 67, 100, 0, 0, 10, 0, 2⟩

/-- C1 witness: in `retPlan`'s first year (age 66 > 65), a trial with a
down market (-1/10) and skips remaining takes no withdrawal. -/
theorem skip_policy_withdrawal_witness :
    retPlan.retirementAge < retPlan.currentAge + ((1 : Nat) : Int)
    ∧ (stepTrial retPlan zeroScen 1 (-1/10) ⟨100, 2⟩).balance
        = max ((100 : ℚ) * (1 + (-1/10))) 0 := by
  refine ⟨by decide, ?_⟩
  exact (skip_policy_withdrawal retPlan zeroScen 1 (-1/10) ⟨100, 2⟩ (by decide)).2
    (by norm_num) (by decide)

/-- C2: in a retirement-phase year, a trial that skips the withdrawal
(return `≤ 0` and skips `> 0`) has its skip count decremented by 1 exactly
when its post-market-step balance is strictly positive; a skipping trial
whose post-market-step balance is `≤ 0` keeps its skip count unchanged. -/
theorem skip_decrement_condition (plan : Plan) (scen : Scenario) (yi : Nat) (r : ℚ)
    (st : TrialState) (hret : plan.retirementAge < plan.currentAge + (yi : Int))
    (hr : r ≤ 0) (hs : 0 < st.skips) :
    (0 < st.balance * (1 + r) →
      (stepTrial plan scen yi r st).skips = st.skips - 1)
    ∧ (st.balance * (1 + r) ≤ 0 →
      (stepTrial plan scen yi r st).skips = st.skips) := by
  have hage : ¬ plan.currentAge + (yi : Int) ≤ plan.retirementAge := not_le.mpr hret
  have hsw : shouldWithdraw r st.skips = false := by
    simp [shouldWithdraw, not_lt.mpr hr]
    omega
  have hcfb : cashFlowBalance plan scen yi r st = st.balance * (1 + r) := by
    simp [cashFlowBalance, hage, hsw]
  constructor
  · intro hpos
    simp [stepTrial, hcfb, hret, hsw, hpos]
  · intro hnonpos
    simp [stepTrial, hcfb, not_lt.mpr hnonpos]

/-- C2 witness: in `retPlan`'s first retirement year, a down-market trial
with positive post-market balance consumes one skip, and one whose
post-market balance is 0 keeps both its skips. -/
theorem skip_decrement_condition_witness :
    retPlan.retirementAge < retPlan.currentAge + ((1 : Nat) : Int)
    ∧ ((-1 : ℚ)/10 ≤ 0) ∧ (0 : Int) < 2
    ∧ (stepTrial retPlan zeroScen 1 (-1/10) ⟨100, 2⟩).skips = 2 - 1
    ∧ (stepTrial retPlan zeroScen 1 (-1/10) ⟨0, 2⟩).skips = 2 := by
  refine ⟨by decide, by norm_num, by decide, ?_, ?_⟩
  · exact (skip_decrement_condition retPlan zeroScen 1 (-1/10) ⟨100, 2⟩
      (by decide) (by norm_num) (by decide)).1 (by norm_num)
  · exact (skip_decrement_condition retPlan zeroScen 1 (-1/10) ⟨0, 2⟩
      (by decide) (by norm_num) (by decide)).2 (by norm_num)

/-- A concrete one-accumulation-year plan: ages 64 / 65 / 65, monthly
deposit 1000, no other cash flows, starting balance `pc`. -/
def accPlan (pc : ℚ) : Plan := ⟨64, 65, 65, pc, 1000, 0, 0, 0, 0⟩

/-- C7: in an accumulation-phase year (`age ≤ retirement_age`) the cash
flow adds exactly `monthly_deposit * 12 * (1 + raise_rate) ^ year_idx` to
the post-market balance (the skip count untouched); concretely, with
deterministic return 0, deposit 1000 and zero raises, one accumulation
year takes a trial from `pc ≥ 0` to exactly `pc + 12000`. -/
theorem accumulation_contribution (plan : Plan) (scen : Scenario) (yi : Nat) (r : ℚ)
    (st : TrialState) (hacc : plan.currentAge + (yi : Int) ≤ plan.retirementAge) :
    ((stepTrial plan scen yi r st).balance
      = max (st.balance * (1 + r)
          + plan.monthlyDeposit * 12 * (1 + scen.raise_rate) ^ yi) 0)
    ∧ (stepTrial plan scen yi r st).skips = st.skips
    ∧ (∀ pc : ℚ, 0 ≤ pc →
        (trialAfter (accPlan pc) zeroScen (fun _ => 0) 1).balance = pc + 12000) := by
  refine ⟨?_, ?_, ?_⟩
  · simp [stepTrial, cashFlowBalance, contribution, hacc]
  · have : ¬ plan.retirementAge < plan.currentAge + (yi : Int) := not_lt.mpr hacc
    simp [stepTrial, this]
  · intro pc hpc
    show (stepTrial (accPlan pc) zeroScen 1 0 (initTrial (accPlan pc))).balance = pc + 12000
    have h12 : (0 : ℚ) ≤ pc * (1 + 0) + 1000 * 12 * (1 + 0) ^ (1 : Nat) := by
      norm_num
      linarith
    simp [stepTrial, cashFlowBalance, contribution, accPlan, initTrial, zeroScen]
    norm_num
    linarith

/-- C7 witness: the accumulation branch at `accPlan`'s year 1, and the
concrete 12000 contribution starting from balance 5. -/
theorem accumulation_contribution_witness :
    (accPlan 5).currentAge + ((1 : Nat) : Int) ≤ (accPlan 5).retirementAge
    ∧ (0 : ℚ) ≤ 5
    ∧ (trialAfter (accPlan 5) zeroScen (fun _ => 0) 1).balance = 5 + 12000 := by
  refine ⟨by decide, by norm_num, ?_⟩
  exact (accumulation_contribution (accPlan 5) zeroScen 1 0 (initTrial (accPlan 5))
    (by decide)).2.2 5 (by norm_num)

/-! ### Population invariants (C4, C5) -/

/-- C4: after every year's floor step (any year `k ≥ 1`), every trial's
balance is `≥ 0`; and the year step floors (max with 0) exactly the
post-cash-flow balance, i.e. the floor comes after the cash-flow step and
before anything of the next year. -/
theorem balance_floor_invariant (plan : Plan) (scen : Scenario) (n : Nat)
    (draws : Nat → Nat → ℚ) (k : Nat) (st : TrialState) (hk : 1 ≤ k)
    (hmem : st ∈ popAfter plan scen n draws k) :
    0 ≤ st.balance
    ∧ ∀ yi r s2, (stepTrial plan scen yi r s2).balance
        = max (cashFlowBalance plan scen yi r s2) 0 := by
  refine ⟨?_, fun yi r s2 => rfl⟩
  obtain ⟨t, -, hst⟩ := (mem_popAfter plan scen n draws k st).mp hmem
  obtain ⟨m, rfl⟩ : ∃ m, k = m + 1 := ⟨k - 1, by omega⟩
  rw [hst]
  exact stepTrial_balance_nonneg _ _ _ _ _

/-- C4 witness: the first year of a concrete one-trial run. -/
theorem balance_floor_invariant_witness :
    (1 : Nat) ≤ 1
    ∧ trialAfter retPlan zeroScen (fun yi => (fun _ _ => (0 : ℚ)) yi 0) 1
        ∈ popAfter retPlan zeroScen 1 (fun _ _ => (0 : ℚ)) 1
    ∧ 0 ≤ (trialAfter retPlan zeroScen (fun yi => (fun _ _ => (0 : ℚ)) yi 0) 1).balance := by
  refine ⟨le_refl 1, ?_, ?_⟩
  · simp [popAfter]
  · exact (balance_floor_invariant retPlan zeroScen 1 (fun _ _ => (0 : ℚ)) 1
      (trialAfter retPlan zeroScen (fun yi => (fun _ _ => (0 : ℚ)) yi 0) 1)
      (le_refl 1) (by simp [popAfter])).1

/-- C5: with a non-negative initial skip budget, every trial's skip count
is `≥ 0` after every year, and each year step never increases a trial's
skip count (it only ever subtracts 1, and only from a strictly positive
count). -/
theorem skip_count_invariant (plan : Plan) (scen : Scenario) (n : Nat)
    (draws : Nat → Nat → ℚ) (k : Nat) (st : TrialState)
    (hes : 0 ≤ plan.emergencySavings)
    (hmem : st ∈ popAfter plan scen n draws k) :
    0 ≤ st.skips
    ∧ ∀ yi r s2, (stepTrial plan scen yi r s2).skips ≤ s2.skips := by
  refine ⟨?_, fun yi r s2 => stepTrial_skips_le plan scen yi r s2⟩
  obtain ⟨t, -, hst⟩ := (mem_popAfter plan scen n draws k st).mp hmem
  rw [hst]
  exact trialAfter_skips_nonneg plan scen _ hes k

/-- C5 witness: the same concrete one-trial run, after two years. -/
theorem skip_count_invariant_witness :
    (0 : Int) ≤ retPlan.emergencySavings
    ∧ trialAfter retPlan zeroScen (fun yi => (fun _ _ => (0 : ℚ)) yi 0) 2
        ∈ popAfter retPlan zeroScen 1 (fun _ _ => (0 : ℚ)) 2
    ∧ 0 ≤ (trialAfter retPlan zeroScen (fun yi => (fun _ _ => (0 : ℚ)) yi 0) 2).skips := by
  refine ⟨by decide, ?_, ?_⟩
  · simp [popAfter]
  · exact (skip_count_invariant retPlan zeroScen 1 (fun _ _ => (0 : ℚ)) 2
      (trialAfter retPlan zeroScen (fun yi => (fun _ _ => (0 : ℚ)) yi 0) 2)
      (by decide) (by simp [popAfter])).1

/-! ### Reduction (C6, C10) -/

theorem length_finalBalances (plan : Plan) (scen : Scenario) (n : Nat)
    (draws : Nat → Nat → ℚ) : (finalBalances plan scen n draws).length = n := by
  simp [finalBalances, popAfter]

/-- C6: the run's first output is `100 * (count of final balances > 0) /
trial_count`, it lies in `[0, 100]` whenever `trial_count ≥ 1`, and the
second output is the standard median of the final balances. -/
theorem reduction_outputs (n : Nat) (plan : Plan) (scen : Scenario)
    (draws : Nat → Nat → ℚ) (hn : 1 ≤ n) :
    (runSim n plan scen draws).1
        = 100 * (((finalBalances plan scen n draws).countP
            fun b => decide (0 < b) : Nat) : ℚ) / (n : ℚ)
    ∧ 0 ≤ (runSim n plan scen draws).1
    ∧ (runSim n plan scen draws).1 ≤ 100
    ∧ (runSim n plan scen draws).2 = median (finalBalances plan scen n draws) := by
  have hn0 : (0 : ℚ) < (n : ℚ) := by exact_mod_cast hn
  have hcle : ((finalBalances plan scen n draws).countP fun b => decide (0 < b)) ≤ n :=
    le_trans (List.countP_le_length _) (le_of_eq (length_finalBalances plan scen n draws))
  have hcleQ : (((finalBalances plan scen n draws).countP
      fun b => decide (0 < b) : Nat) : ℚ) ≤ (n : ℚ) := by exact_mod_cast hcle
  refine ⟨?_, ?_, ?_, rfl⟩
  · show successRate n (finalBalances plan scen n draws) = _
    unfold successRate
    ring
  · show 0 ≤ successRate n (finalBalances plan scen n draws)
    unfold successRate
    positivity
  · show successRate n (finalBalances plan scen n draws) ≤ 100
    unfold successRate
    calc (((finalBalances plan scen n draws).countP
          fun b => decide (0 < b) : Nat) : ℚ) / (n : ℚ) * 100
        ≤ 1 * 100 := by
          apply mul_le_mul_of_nonneg_right _ (by norm_num)
          exact (div_le_one hn0).mpr hcleQ
      _ = 100 := one_mul 100

/-- C6 witness: a one-trial run of `retPlan` under the deterministic
zero-return source. -/
theorem reduction_outputs_witness :
    (1 : Nat) ≤ 1
    ∧ 0 ≤ (runSim 1 retPlan zeroScen (fun _ _ => 0)).1
    ∧ (runSim 1 retPlan zeroScen (fun _ _ => 0)).1 ≤ 100 := by
  refine ⟨le_refl 1, ?_, ?_⟩
  · exact (reduction_outputs 1 retPlan zeroScen (fun _ _ => 0) (le_refl 1)).2.1
  · exact (reduction_outputs 1 retPlan zeroScen (fun _ _ => 0) (le_refl 1)).2.2.1

/-- C10: permuting the final balance population changes neither the
success rate nor the median. -/
theorem reduction_permutation_invariant (l1 l2 : List ℚ) (n : Nat)
    (hp : l1.Perm l2) :
    successRate n l1 = successRate n l2 ∧ median l1 = median l2 := by
  have h1 := List.sorted_insertionSort (fun x y : ℚ => x ≤ y) l1
  have h2 := List.sorted_insertionSort (fun x y : ℚ => x ≤ y) l2
  have hperm : (List.insertionSort (fun x y : ℚ => x ≤ y) l1).Perm
      (List.insertionSort (fun x y : ℚ => x ≤ y) l2) :=
    ((List.perm_insertionSort _ l1).trans hp).trans
      (List.perm_insertionSort _ l2).symm
  have hsort := List.eq_of_perm_of_sorted hperm h1 h2
  constructor
  · simp [successRate, hp.countP_eq]
  · simp only [median, hsort]

/-- C10 witness: the two-element population `[1, 2]` against its
reversal. -/
theorem reduction_permutation_invariant_witness :
    ([(1 : ℚ), 2].Perm [2, 1])
    ∧ successRate 2 [(1 : ℚ), 2] = successRate 2 [2, 1]
    ∧ median [(1 : ℚ), 2] = median [2, 1] := by
  have hp : ([(1 : ℚ), 2].Perm [2, 1]) := List.Perm.swap 2 1 []
  exact ⟨hp, (reduction_permutation_invariant [1, 2] [2, 1] 2 hp).1,
    (reduction_permutation_invariant [1, 2] [2, 1] 2 hp).2⟩

/-! ### Determinism (C9) -/

theorem trialAfter_congr (plan : Plan) (scen : Scenario) (rs1 rs2 : Nat → ℚ)
    (h : ∀ yi, rs1 yi = rs2 yi) :
    ∀ k, trialAfter plan scen rs1 k = trialAfter plan scen rs2 k := by
  intro k
  induction k with
  | zero => rfl
  | succ m ih => simp [trialAfter, h, ih]

/-- C9: with a deterministic return source giving the same fixed value on
every call, every trial follows the identical trajectory; and the whole
run is a function of its inputs — same plan, scenario, trial count and
draw-for-draw identical random sequences give identical outputs. -/
theorem deterministic_reproducibility (plan : Plan) (scen : Scenario) (n : Nat)
    (c : ℚ) (draws draws2 : Nat → Nat → ℚ)
    (hconst : ∀ yi t, draws yi t = c) (heq : ∀ yi t, draws2 yi t = draws yi t) :
    (∀ t1 t2 k, trialAfter plan scen (fun yi => draws yi t1) k
        = trialAfter plan scen (fun yi => draws yi t2) k)
    ∧ runSim n plan scen draws2 = runSim n plan scen draws := by
  constructor
  · intro t1 t2 k
    rw [trialAfter_congr plan scen (fun yi => draws yi t1) (fun _ => c)
      (fun yi => hconst yi t1) k]
    rw [trialAfter_congr plan scen (fun yi => draws yi t2) (fun _ => c)
      (fun yi => hconst yi t2) k]
  · have hpop : ∀ k, popAfter plan scen n draws2 k = popAfter plan scen n draws k := by
      intro k
      unfold popAfter
      apply List.map_congr_left
      intro t _
      exact trialAfter_congr plan scen _ _ (fun yi => heq yi t) k
    simp [runSim, finalBalances, hpop]

/-- C9 witness: two syntactically different all-zero draw sources over
`retPlan` give equal trajectories and equal outputs. -/
theorem deterministic_reproducibility_witness :
    (∀ yi t : Nat, (fun _ _ => (0 : ℚ)) yi t = 0)
    ∧ (∀ yi t : Nat, (fun a b : Nat => (0 : ℚ) * ((a : ℚ) + (b : ℚ))) yi t
        = (fun _ _ => (0 : ℚ)) yi t)
    ∧ (∀ t1 t2 k : Nat,
        trialAfter retPlan zeroScen (fun yi => (fun _ _ => (0 : ℚ)) yi t1) k
          = trialAfter retPlan zeroScen (fun yi => (fun _ _ => (0 : ℚ)) yi t2) k)
    ∧ runSim 2 retPlan zeroScen (fun a b : Nat => (0 : ℚ) * ((a : ℚ) + (b : ℚ)))
        = runSim 2 retPlan zeroScen (fun _ _ => (0 : ℚ)) := by
  have h1 : ∀ yi t : Nat, (fun _ _ => (0 : ℚ)) yi t = 0 := fun _ _ => rfl
  have h2 : ∀ yi t : Nat, (fun a b : Nat => (0 : ℚ) * ((a : ℚ) + (b : ℚ))) yi t
      = (fun _ _ => (0 : ℚ)) yi t := by
    intro yi t
    simp
  exact ⟨h1, h2,
    (deterministic_reproducibility retPlan zeroScen 2 0 (fun _ _ => 0)
      (fun a b => (0 : ℚ) * ((a : ℚ) + (b : ℚ))) h1 h2).1,
    (deterministic_reproducibility retPlan zeroScen 2 0 (fun _ _ => 0)
      (fun a b => (0 : ℚ) * ((a : ℚ) + (b : ℚ))) h1 h2).2⟩

/-! ### Degenerate runs and plan-dictionary errors (C8, C3) -/

theorem countP_replicate_pos (n : Nat) (a : ℚ) :
    (List.replicate n a).countP (fun b => decide (0 < b)) = if 0 < a then n else 0 := by
  induction n with
  | zero => simp
  | succ k ih =>
    simp [List.replicate_succ, List.countP_cons, ih]
    split <;> simp [*]

theorem successRate_replicate (n : Nat) (a : ℚ) (hn : 1 ≤ n) :
    successRate n (List.replicate n a) = if 0 < a then 100 else 0 := by
  have hn0 : ((n : ℚ)) ≠ 0 := Nat.cast_ne_zero.mpr (by omega)
  unfold successRate
  rw [countP_replicate_pos]
  by_cases h : 0 < a
  · simp [h]
    field_simp
  · simp [h]

theorem insertionSort_replicate (n : Nat) (a : ℚ) :
    List.insertionSort (fun x y => x ≤ y) (List.replicate n a) = List.replicate n a := by
  have h1 := List.sorted_insertionSort (fun x y : ℚ => x ≤ y) (List.replicate n a)
  have h2 : List.Sorted (fun x y : ℚ => x ≤ y) (List.replicate n a) :=
    List.pairwise_replicate.mpr (Or.inr (le_refl a))
  exact List.eq_of_perm_of_sorted (List.perm_insertionSort _ _) h1 h2

theorem getD_replicate_lt (n i : Nat) (a : ℚ) (h : i < n) :
    (List.replicate n a).getD i 0 = a := by
  simp [List.getD, List.getElem?_replicate, h]

theorem median_replicate (n : Nat) (a : ℚ) (hn : 1 ≤ n) :
    median (List.replicate n a) = a := by
  have hd2 : n / 2 < n := Nat.div_lt_self (by omega) (by omega)
  have hd1 : n / 2 - 1 < n := by omega
  simp only [median, insertionSort_replicate, List.length_replicate]
  by_cases h : n % 2 = 1
  · rw [if_pos h, getD_replicate_lt _ _ _ hd2]
  · rw [if_neg h, getD_replicate_lt _ _ _ hd2, getD_replicate_lt _ _ _ hd1]
    ring

theorem finalBalances_zero_years (plan : Plan) (scen : Scenario) (n : Nat)
    (draws : Nat → Nat → ℚ) (h : plan.deathAge ≤ plan.currentAge) :
    finalBalances plan scen n draws = List.replicate n plan.portfolioCurrent := by
  have hy : simYears plan = 0 := by
    unfold simYears
    omega
  unfold finalBalances popAfter
  rw [hy]
  simp [trialAfter, initTrial]

theorem runSimE_ok_of_nonmonotonic (n : Nat) (pd : PlanDict) (scen : Scenario)
    (draws : Nat → Nat → ℚ) (a r d : Int) (pc : ℚ) (es : Int)
    (h1 : pd.currentAge = some a) (h2 : pd.retirementAge = some r)
    (h3 : pd.deathAge = some d) (h4 : pd.portfolioCurrent = some pc)
    (h5 : pd.emergencySavings = some es) (hda : d ≤ a) :
    runSimE n pd scen draws
      = Except.ok (runSim n ⟨a, r, d, pc, pd.monthlyDeposit.getD 0,
          pd.annualDividends.getD 0, pd.annualSpend.getD 0,
          pd.socialSecurity.getD 0, es⟩ scen draws) := by
  have hc1 : ¬ ((1 : Int) ≤ d - a ∧ a + 1 ≤ r) := by omega
  have hc2 : ¬ ((1 : Int) ≤ d - a ∧ r < a + (d - a)) := by omega
  have hc3 : ¬ ((1 : Int) ≤ d - a ∧ r < d) := by omega
  simp [runSimE, getKey, h1, h2, h3, h4, h5, hc1, hc2, hc3, Bind.bind, Except.bind,
    pure, Except.pure, Functor.map, Except.map]

/-- A plan dictionary with every key present but non-monotonic ages:
current age 70, retirement age 65, death age 60, balance 5. -/
def badPlanDict : PlanDict :=
  ⟨some 70, some 65, some 60, some 5, some 0, some 0, some 0, some 0, some 0⟩

/-- A plan dictionary whose `CURRENT AGE` key is missing. -/
def noAgeDict : PlanDict :=
  ⟨none, some 65, some 90, some 5, some 0, some 0, some 0, some 0, some 0⟩

/-- C8: when `death_age ≤ current_age`, `run_sim` returns without error
after zero year-steps: the success rate is 100 when the starting balance
is positive and 0 otherwise, and the median is the starting balance. -/
theorem degenerate_run_zero_years (n : Nat) (pd : PlanDict) (scen : Scenario)
    (draws : Nat → Nat → ℚ) (a r d : Int) (pc : ℚ) (es : Int)
    (h1 : pd.currentAge = some a) (h2 : pd.retirementAge = some r)
    (h3 : pd.deathAge = some d) (h4 : pd.portfolioCurrent = some pc)
    (h5 : pd.emergencySavings = some es) (hda : d ≤ a) (hn : 1 ≤ n) :
    runSimE n pd scen draws
      = Except.ok ((if 0 < pc then (100 : ℚ) else 0), pc) := by
  rw [runSimE_ok_of_nonmonotonic n pd scen draws a r d pc es h1 h2 h3 h4 h5 hda]
  have hfb := finalBalances_zero_years
    ⟨a, r, d, pc, pd.monthlyDeposit.getD 0, pd.annualDividends.getD 0,
     pd.annualSpend.getD 0, pd.socialSecurity.getD 0, es⟩ scen n draws hda
  simp only [runSim, hfb]
  rw [successRate_replicate n pc hn, median_replicate n pc hn]

/-- C8 witness: the concrete non-monotonic plan `badPlanDict` with one
trial: the run succeeds with outputs (100, 5). -/
theorem degenerate_run_zero_years_witness :
    badPlanDict.currentAge = some 70 ∧ badPlanDict.deathAge = some 60
    ∧ (60 : Int) ≤ 70 ∧ (1 : Nat) ≤ 1
    ∧ runSimE 1 badPlanDict zeroScen (fun _ _ => 0)
        = Except.ok ((if (0 : ℚ) < 5 then (100 : ℚ) else 0), 5) := by
  refine ⟨rfl, rfl, by decide, le_refl 1, ?_⟩
  exact degenerate_run_zero_years 1 badPlanDict zeroScen (fun _ _ => 0) 70 65 60 5 0
    rfl rfl rfl rfl rfl (by decide) (le_refl 1)

/-- C3 counterexample: a plan with non-monotonic ages (death age 60 ≤
current age 70) is not rejected before the per-year loop: the engine
returns `Except.ok` — it raises no error at all, and no
`ConfigurationError` exists anywhere in the code. -/
theorem nonmonotonic_ages_not_rejected :
    runSimE 1 badPlanDict zeroScen (fun _ _ => 0) = Except.ok (100, 5) := by
  rw [runSimE_ok_of_nonmonotonic 1 badPlanDict zeroScen (fun _ _ => 0)
    70 65 60 5 0 rfl rfl rfl rfl rfl (by decide)]
  norm_num [runSim, finalBalances, popAfter, simYears, trialAfter, initTrial,
    successRate, median, badPlanDict, List.insertionSort, List.range_succ,
    List.countP_cons]

/-- C3 amended: a plan missing one of the pre-loop keys (`CURRENT AGE`,
`RETIREMENT AGE`, `DEATH AGE`, `CURRENT`, `EMERGENCY SAVINGS`) makes the
engine fail before the per-year loop with a `KeyError` (not a
`ConfigurationError`) naming that key, earlier keys being present; but
non-monotonic ages are not detected: with the pre-loop keys present and
`death_age ≤ current_age` the engine runs zero year-steps and returns
normally. -/
theorem missing_key_and_no_age_validation (n : Nat) (pd : PlanDict)
    (scen : Scenario) (draws : Nat → Nat → ℚ) :
    (pd.currentAge = none →
      runSimE n pd scen draws = Except.error (SimError.keyError "CURRENT AGE"))
    ∧ (∀ a : Int, pd.currentAge = some a → pd.retirementAge = none →
      runSimE n pd scen draws = Except.error (SimError.keyError "RETIREMENT AGE"))
    ∧ (∀ a r : Int, pd.currentAge = some a → pd.retirementAge = some r →
        pd.deathAge = none →
      runSimE n pd scen draws = Except.error (SimError.keyError "DEATH AGE"))
    ∧ (∀ a r d : Int, pd.currentAge = some a → pd.retirementAge = some r →
        pd.deathAge = some d → pd.portfolioCurrent = none →
      runSimE n pd scen draws = Except.error (SimError.keyError "CURRENT"))
    ∧ (∀ a r d : Int, ∀ pc : ℚ, pd.currentAge = some a →
        pd.retirementAge = some r → pd.deathAge = some d →
        pd.portfolioCurrent = some pc → pd.emergencySavings = none →
      runSimE n pd scen draws
        = Except.error (SimError.keyError "EMERGENCY SAVINGS"))
    ∧ (∀ a r d : Int, ∀ pc : ℚ, ∀ es : Int, pd.currentAge = some a →
        pd.retirementAge = some r → pd.deathAge = some d →
        pd.portfolioCurrent = some pc → pd.emergencySavings = some es →
        d ≤ a →
      runSimE n pd scen draws
        = Except.ok (runSim n ⟨a, r, d, pc, pd.monthlyDeposit.getD 0,
            pd.annualDividends.getD 0, pd.annualSpend.getD 0,
            pd.socialSecurity.getD 0, es⟩ scen draws)) := by
  refine ⟨?_, ?_, ?_, ?_, ?_, ?_⟩
  · intro h
    simp [runSimE, getKey, h, Bind.bind, Except.bind]
  · intro a h1 h
    simp [runSimE, getKey, h1, h, Bind.bind, Except.bind]
  · intro a r h1 h2 h
    simp [runSimE, getKey, h1, h2, h, Bind.bind, Except.bind]
  · intro a r d h1 h2 h3 h
    simp [runSimE, getKey, h1, h2, h3, h, Bind.bind, Except.bind]
  · intro a r d pc h1 h2 h3 h4 h
    simp [runSimE, getKey, h1, h2, h3, h4, h, Bind.bind, Except.bind]
  · intro a r d pc es h1 h2 h3 h4 h5 hda
    exact runSimE_ok_of_nonmonotonic n pd scen draws a r d pc es h1 h2 h3 h4 h5 hda

/-- C3 amended witness: the missing-key failure on `noAgeDict` and the
accepted non-monotonic run on `badPlanDict`. -/
theorem missing_key_and_no_age_validation_witness :
    noAgeDict.currentAge = none
    ∧ runSimE 1 noAgeDict zeroScen (fun _ _ => 0)
        = Except.error (SimError.keyError "CURRENT AGE")
    ∧ (60 : Int) ≤ 70
    ∧ runSimE 1 badPlanDict zeroScen (fun _ _ => 0)
        = Except.ok (runSim 1 ⟨70, 65, 60, 5, 0, 0, 0, 0, 0⟩ zeroScen
            (fun _ _ => 0)) := by
  refine ⟨rfl, ?_, by decide, ?_⟩
  · exact (missing_key_and_no_age_validation 1 noAgeDict zeroScen (fun _ _ => 0)).1 rfl
  · exact (missing_key_and_no_age_validation 1 badPlanDict zeroScen
      (fun _ _ => 0)).2.2.2.2.2 70 65 60 5 0 rfl rfl rfl rfl rfl (by decide)
